import Mathlib

/-!
Verification of the hotel-suggestion MCP tool in
`examples/mcp_server_basic.py` (functions `validate_iso_date` and
`suggest_hotels`), via a shallow embedding.

Modelling decisions:
* Randomness: `random.*` calls are modelled by an explicit oracle `RNG`,
  a stream of arbitrary natural numbers together with a cursor; each
  primitive draw consumes one stream element.  All theorems quantify
  over every oracle, so they hold for every sequence of random draws.
* `random.uniform(a, b)` followed by rounding is modelled directly on
  the rounded grid: `round(uniform(3.0, 5.0), 1)` yields a value with
  one fractional digit in [3.0, 5.0], represented as an integer count
  of tenths in [30, 50]; `round(uniform(lo, hi))` yields an integer in
  [lo, hi].
* The regex `^\d{4}-\d{2}-\d{2}$` is modelled as: exactly ten
  characters, with ASCII digits and dashes in the required positions.
* `datetime.strptime(s, "%Y-%m-%d").date()` is modelled for the only
  strings the program feeds it (ones that already passed the pattern
  check), reproducing CPython's error messages for each failure mode.
* `faker.street_address()` is an opaque external generator, modelled as
  an oracle `Nat → String` indexed by the loop iteration.
-/

/-- Oracle for `random`: an arbitrary infinite stream of naturals and a
cursor marking the next unconsumed element. -/
structure RNG where
  stream : Nat → Nat
  pos : Nat

/-- Draw one raw value from the oracle. -/
def RNG.next (g : RNG) : Nat × RNG :=
  (g.stream g.pos, { g with pos := g.pos + 1 })

/-- Model of `random.randint(a, b)`: an arbitrary draw reduced into the
inclusive range `[a, b]` (requires `a ≤ b`, as at every call site). -/
def randint (a b : Nat) (g : RNG) : Nat × RNG :=
  let p := g.next
  (a + p.1 % (b - a + 1), p.2)

/-- Model of `random.choice(xs)` for a nonempty list (`dflt` is never
returned when `xs` is nonempty). -/
def choice {α : Type} (xs : List α) (dflt : α) (g : RNG) : α × RNG :=
  let p := g.next
  (xs.getD (p.1 % xs.length) dflt, p.2)

/-- Model of `random.sample(xs, k)`: `k` draws without replacement, each
draw removing the chosen element from the remaining population. -/
def sample (xs : List String) (k : Nat) (g : RNG) : List String × RNG :=
  match k with
  | 0 => ([], g)
  | Nat.succ k =>
    if h : xs = [] then ([], g)
    else
      let p := g.next
      let i := p.1 % xs.length
      let x := xs.getD i ""
      let q := sample (xs.eraseIdx i) k p.2
      (x :: q.1, q.2)

/-- A parsed calendar date, as produced by `datetime.date`. -/
structure Date where
  year : Nat
  month : Nat
  day : Nat
deriving DecidableEq, Repr

/-- Gregorian leap-year rule used by `datetime`. -/
def isLeapYear (y : Nat) : Bool :=
  (y % 4 == 0 && y % 100 != 0) || y % 400 == 0

/-- Number of days in a month, as enforced by `datetime.date`. -/
def daysInMonth (y m : Nat) : Nat :=
  if m = 2 then (if isLeapYear y then 29 else 28)
  else if m = 4 ∨ m = 6 ∨ m = 9 ∨ m = 11 then 30
  else 31

/-- Python `date` comparison `a <= b`: lexicographic on
(year, month, day). -/
def Date.le (a b : Date) : Bool :=
  Nat.blt a.year b.year ||
    (a.year == b.year &&
      (Nat.blt a.month b.month ||
        (a.month == b.month && Nat.ble a.day b.day)))

/-- Errors raised by the tool (all `ValueError` in Python; the
constructors record the spec's taxonomy and the data each message is
built from). -/
inductive SuggestError where
  | invalidDateFormat (param : String) (value : String)
  | invalidDateValue (param : String) (value : String) (reason : String)
  | invalidDateRange
deriving DecidableEq, Repr

/-- The exact `ValueError` message text the Python code attaches to each
error. -/
def SuggestError.message : SuggestError → String
  | .invalidDateFormat p v => p ++ " must be in ISO format (YYYY-MM-DD), got: " ++ v
  | .invalidDateValue p _ reason => "Invalid " ++ p ++ ": " ++ reason
  | .invalidDateRange => "check_out date must be after check_in date"

/-- Model of `re.compile(r"^\d{4}-\d{2}-\d{2}$").match(s)`: ten
characters, digits and dashes in the required positions. -/
def matchesIsoPattern (s : String) : Bool :=
  match s.data with
  | [y1, y2, y3, y4, h1, m1, m2, h2, d1, d2] =>
    y1.isDigit && y2.isDigit && y3.isDigit && y4.isDigit && (h1 == '-') &&
      m1.isDigit && m2.isDigit && (h2 == '-') && d1.isDigit && d2.isDigit
  | _ => false

/-- Numeric value of an ASCII digit character. -/
def digitVal (c : Char) : Nat := c.toNat - 48

/-- The (year, month, day) digit groups of a ten-character ISO-shaped
string, read as numbers ((0,0,0) when the string has another shape). -/
def parseComponents (s : String) : Nat × Nat × Nat :=
  match s.data with
  | [y1, y2, y3, y4, _, m1, m2, _, d1, d2] =>
    (1000 * digitVal y1 + 100 * digitVal y2 + 10 * digitVal y3 + digitVal y4,
      10 * digitVal m1 + digitVal m2,
      10 * digitVal d1 + digitVal d2)
  | _ => (0, 0, 0)

/-- Model of `datetime.strptime(s, "%Y-%m-%d").date()` on a string that
matched the ISO pattern, reproducing CPython's behaviour branch by
branch: strptime's internal month regex `1[0-2]|0[1-9]|[1-9]` rejects a
two-digit month outside 01..12 and its day regex `3[01]|[12]\d|0[1-9]|[1-9]`
rejects `00` outright and consumes only the first digit of a day ≥ 32
(leaving the second digit unconverted); a surviving triple is then
checked by the `date` constructor (year 0, then day vs. month length). -/
def strptimeIsoDate (s : String) : Except String Date :=
  match s.data with
  | [_, _, _, _, _, _, _, _, _, d2] =>
    let c := parseComponents s
    let y := c.1
    let m := c.2.1
    let d := c.2.2
    if m < 1 ∨ 12 < m then
      .error ("time data '" ++ s ++ "' does not match format '%Y-%m-%d'")
    else if d = 0 then
      .error ("time data '" ++ s ++ "' does not match format '%Y-%m-%d'")
    else if 32 ≤ d then
      .error ("unconverted data remains: " ++ String.mk [d2])
    else if y = 0 then
      .error "year 0 is out of range"
    else if daysInMonth y m < d then
      .error "day is out of range for month"
    else
      .ok ⟨y, m, d⟩
  | _ => .error ("time data '" ++ s ++ "' does not match format '%Y-%m-%d'")

/-- Embedding of `validate_iso_date(date_str, param_name)`: the pattern
check, then the strptime parse, each failure raised as a `ValueError`
with the message recorded in `SuggestError.message`. -/
def validate_iso_date (date_str param_name : String) : Except SuggestError Date :=
  if matchesIsoPattern date_str then
    match strptimeIsoDate date_str with
    | .ok d => .ok d
    | .error reason => .error (.invalidDateValue param_name date_str reason)
  else
    .error (.invalidDateFormat param_name date_str)

/-- Embedding of the `Hotel` dataclass.  `ratingTenths` is the rating in
tenths of a star (the Python value has exactly one fractional digit);
`price_per_night` is the whole-unit rounded price. -/
structure Hotel where
  name : String
  address : String
  location : String
  ratingTenths : Nat
  price_per_night : Nat
  hotel_type : String
  amenities : List String
  available_rooms : Nat
deriving DecidableEq, Repr

/-- Embedding of the `HotelSuggestions` dataclass. -/
structure HotelSuggestions where
  hotels : List Hotel
deriving DecidableEq, Repr

/-- The `hotel_types` list in `suggest_hotels`. -/
def hotel_types : List String := ["Luxury", "Boutique", "Budget", "Business"]

/-- The `amenities` catalog in `suggest_hotels`. -/
def amenitiesCatalog : List String :=
  ["Free WiFi", "Pool", "Spa", "Gym", "Restaurant", "Bar", "Room Service", "Parking"]

/-- The `neighborhoods` list in `suggest_hotels`. -/
def neighborhoods : List String :=
  ["Downtown", "Historic District", "Waterfront", "Business District",
    "Arts District", "University Area"]

/-- The venue nouns used to build hotel names. -/
def nameNouns : List String := ["Hotel", "Inn", "Suites", "Resort", "Plaza"]

/-- The `price_ranges` dict in `generate_price`, in insertion order. -/
def price_ranges : List (String × (Nat × Nat)) :=
  [("Luxury", (250, 600)), ("Boutique", (180, 350)), ("Budget", (80, 150)),
    ("Resort", (200, 500)), ("Business", (150, 300))]

/-- Embedding of `generate_rating`: `round(random.uniform(3.0, 5.0), 1)`,
in tenths. -/
def generate_rating (g : RNG) : Nat × RNG := randint 30 50 g

/-- Embedding of `generate_price`: dict lookup with default (100, 300),
then `round(random.uniform(min_price, max_price))`. -/
def generate_price (hotel_type : String) (g : RNG) : Nat × RNG :=
  let r := (price_ranges.lookup hotel_type).getD (100, 300)
  randint r.1 r.2 g

/-- One iteration of the generation loop in `suggest_hotels`, consuming
oracle draws in source order. -/
def genHotel (location addr : String) (g : RNG) : Hotel × RNG :=
  let pt := choice hotel_types "" g
  let pk := randint 3 6 pt.2
  let pa := sample amenitiesCatalog pk.1 pk.2
  let pn := choice neighborhoods "" pa.2
  let pw := randint 0 4 pn.2
  let pr := generate_rating pw.2
  let pp := generate_price pt.1 pr.2
  let pv := randint 1 15 pp.2
  (⟨pt.1 ++ " " ++ nameNouns.getD pw.1 "", addr,
      pn.1 ++ ", " ++ location, pr.1, pp.1, pt.1, pa.1, pv.1⟩, pv.2)

/-- The generation loop: hotels `i, i+1, ...` for `n` iterations. -/
def genHotels (location : String) (fakeAddr : Nat → String) (i : Nat) :
    Nat → RNG → List Hotel × RNG
  | 0, g => ([], g)
  | Nat.succ n, g =>
    let p := genHotel location (fakeAddr i) g
    let q := genHotels location fakeAddr (i + 1) n p.2
    (p.1 :: q.1, q.2)

/-- Descending-by-rating comparison used by
`hotels.sort(key=lambda x: x.rating, reverse=True)`. -/
def ratingGe (a b : Hotel) : Prop := b.ratingTenths ≤ a.ratingTenths

instance : DecidableRel ratingGe := fun a b => Nat.decLe _ _

instance : IsTotal Hotel ratingGe :=
  ⟨fun a b => Nat.le_total b.ratingTenths a.ratingTenths⟩

instance : IsTrans Hotel ratingGe :=
  ⟨fun _ _ _ hab hbc => Nat.le_trans hbc hab⟩

/-- Embedding of the final sort: a stable sort, descending by rating. -/
def sortHotels (hs : List Hotel) : List Hotel := List.insertionSort ratingGe hs

/-- Embedding of `suggest_hotels(location, check_in, check_out)`:
validate `check_in`, validate `check_out`, check the range, then
generate `randint(3, 8)` hotels and sort them by rating descending. -/
def suggest_hotels (location check_in check_out : String) (g : RNG)
    (fakeAddr : Nat → String) : Except SuggestError HotelSuggestions :=
  match validate_iso_date check_in "check_in" with
  | .error e => .error e
  | .ok check_in_date =>
    match validate_iso_date check_out "check_out" with
    | .error e => .error e
    | .ok check_out_date =>
      if Date.le check_out_date check_in_date then
        .error .invalidDateRange
      else
        let pn := randint 3 8 g
        let ph := genHotels location fakeAddr 0 pn.1 pn.2
        .ok ⟨sortHotels ph.1⟩

/-! Spec-side definitions (written from the specification's own words,
for comparison with the embedding above). -/

/-- Spec-side format check, from the spec's pattern
`^\d{4}-\d{2}-\d{2}$`: four digits, a dash, two digits, a dash, two
digits, and nothing else. -/
def specFormatOk (s : String) : Bool :=
  match s.data with
  | [y1, y2, y3, y4, h1, m1, m2, h2, d1, d2] =>
    y1.isDigit && y2.isDigit && y3.isDigit && y4.isDigit && (h1 == '-') &&
      m1.isDigit && m2.isDigit && (h2 == '-') && d1.isDigit && d2.isDigit
  | _ => false

/-- Spec-side notion of "parses as a real calendar date" for a
pattern-matching string: the month is 1..12, the day is 1..the length
of that month, and the year is at least 1 (the Gregorian calendar has
no year 0, and `datetime` accepts years 1..9999). -/
def specRealDate (s : String) : Bool :=
  let c := parseComponents s
  decide (1 ≤ c.1 ∧ 1 ≤ c.2.1 ∧ c.2.1 ≤ 12 ∧ 1 ≤ c.2.2 ∧
    c.2.2 ≤ daysInMonth c.1 c.2.1)

/-- Spec-side strict order on parsed dates: (year, month, day)
lexicographically. -/
def specDateLt (a b : Nat × Nat × Nat) : Bool :=
  decide (a.1 < b.1 ∨ (a.1 = b.1 ∧ (a.2.1 < b.2.1 ∨
    (a.2.1 = b.2.1 ∧ a.2.2 < b.2.2))))

/-- Spec-side validity of a call: both parameters pass the format
check, both parse as real calendar dates, and the parsed check-out is
strictly later than the parsed check-in. -/
def specValidCall (check_in check_out : String) : Bool :=
  specFormatOk check_in && specFormatOk check_out &&
    specRealDate check_in && specRealDate check_out &&
    specDateLt (parseComponents check_in) (parseComponents check_out)

/-- Spec-side price table from the claim: the four hotel types the
generator produces, each bound to its price range. -/
def claimPriceRange (t : String) : Option (Nat × Nat) :=
  ([("Luxury", (250, 600)), ("Boutique", (180, 350)), ("Budget", (80, 150)),
    ("Business", (150, 300))]).lookup t

/-- Whether `needle` is an initial segment of `hay`. -/
def listHasPre (needle hay : List Char) : Bool :=
  match needle, hay with
  | [], _ => true
  | _ :: _, [] => false
  | a :: as, b :: bs => a == b && listHasPre as bs

/-- Whether `needle` occurs contiguously somewhere inside `hay`. -/
def listHasSub (needle hay : List Char) : Bool :=
  match hay with
  | [] => needle.isEmpty
  | _ :: tl => listHasPre needle hay || listHasSub needle tl

/-- Whether the string `hay` contains the string `needle`. -/
def strContains (hay needle : String) : Bool := listHasSub needle.data hay.data

/-- Whether the string `hay` ends with the string `needle`. -/
def strEndsWith (hay needle : String) : Bool :=
  listHasPre needle.data.reverse hay.data.reverse

/-- A fixed oracle used to instantiate theorems at concrete inputs. -/
def rng0 : RNG := ⟨fun _ => 0, 0⟩

/-- A second fixed oracle producing varied draws. -/
def rng1 : RNG := ⟨fun n => n * 7 + 3, 0⟩

/-- A fixed street-address oracle. -/
def addr0 : Nat → String := fun _ => "1 Main St"

/-- The suggestion list returned by a fixed valid call. -/
def demoRes : HotelSuggestions :=
  match suggest_hotels "Paris" "2024-05-10" "2024-05-12" rng0 addr0 with
  | .ok r => r
  | .error _ => ⟨[]⟩

/-- Placeholder hotel (never selected from a nonempty result). -/
def defaultHotel : Hotel := ⟨"", "", "", 0, 0, "", [], 0⟩

/-- The first hotel of the fixed valid call. -/
def demoHotel : Hotel := demoRes.hotels.headD defaultHotel

/-- The suggestion list returned by the spec's Tokyo example call. -/
def demoTokyoRes : HotelSuggestions :=
  match suggest_hotels "Tokyo" "2024-06-01" "2024-06-03" rng1 addr0 with
  | .ok r => r
  | .error _ => ⟨[]⟩

/-- The first hotel of the Tokyo example call. -/
def demoTokyoHotel : Hotel := demoTokyoRes.hotels.headD defaultHotel

/-- The date a pattern-matching string parses to. -/
def specParseDate (s : String) : Date :=
  ⟨(parseComponents s).1, (parseComponents s).2.1, (parseComponents s).2.2⟩

/-- Invariant satisfied by every hotel the generation loop produces for
a caller-supplied `loc`. -/
def HotelOK (loc : String) (h : Hotel) : Prop :=
  h.hotel_type ∈ hotel_types ∧
  30 ≤ h.ratingTenths ∧ h.ratingTenths ≤ 50 ∧
  (∃ lo hi, claimPriceRange h.hotel_type = some (lo, hi) ∧
    lo ≤ h.price_per_night ∧ h.price_per_night ≤ hi) ∧
  3 ≤ h.amenities.length ∧ h.amenities.length ≤ 6 ∧
  h.amenities.Nodup ∧ h.amenities ⊆ amenitiesCatalog ∧
  (∃ nb, nb ∈ neighborhoods ∧ h.location = nb ++ ", " ++ loc) ∧
  (price_ranges.lookup h.hotel_type).isSome = true

/-! Lemmas about the random primitives. -/

lemma randint_lower (a b : Nat) (g : RNG) : a ≤ (randint a b g).1 := by
  simp [randint]

lemma randint_upper (a b : Nat) (g : RNG) (h : a ≤ b) : (randint a b g).1 ≤ b := by
  have hm : (g.next.1 % (b - a + 1)) < b - a + 1 :=
    Nat.mod_lt _ (Nat.succ_pos _)
  simp only [randint]
  omega

lemma getD_mem {α : Type} (xs : List α) (i : Nat) (d : α) (h : i < xs.length) :
    xs.getD i d ∈ xs := by
  rw [List.getD_eq_getElem?_getD, List.getElem?_eq_getElem h]
  simpa using List.getElem_mem h

lemma choice_mem {α : Type} (xs : List α) (d : α) (g : RNG) (h : xs ≠ []) :
    (choice xs d g).1 ∈ xs := by
  have hl : 0 < xs.length := List.length_pos.mpr h
  exact getD_mem _ _ _ (Nat.mod_lt _ hl)

lemma sample_length (k : Nat) :
    ∀ (xs : List String) (g : RNG), k ≤ xs.length → ((sample xs k g).1).length = k := by
  induction k with
  | zero => intro xs g _; rfl
  | succ k ih =>
    intro xs g hk
    have hne : xs ≠ [] := by
      intro hx; rw [hx] at hk; simp at hk
    have hlt : (g.next.1 % xs.length) < xs.length :=
      Nat.mod_lt _ (List.length_pos.mpr hne)
    simp only [sample, dif_neg hne, List.length_cons]
    rw [ih (xs.eraseIdx (g.next.1 % xs.length)) g.next.2]
    rw [List.length_eraseIdx_of_lt hlt]
    omega

lemma sample_subset (k : Nat) :
    ∀ (xs : List String) (g : RNG), ((sample xs k g).1) ⊆ xs := by
  induction k with
  | zero => intro xs g; simp [sample]
  | succ k ih =>
    intro xs g
    by_cases hne : xs = []
    · simp [sample, hne]
    · have hlt : (g.next.1 % xs.length) < xs.length :=
        Nat.mod_lt _ (List.length_pos.mpr hne)
      simp only [sample, dif_neg hne]
      intro a ha
      rcases List.mem_cons.mp ha with h | h
      · exact h ▸ getD_mem _ _ _ hlt
      · exact List.eraseIdx_subset _ _ (ih _ _ h)

lemma sample_nodup (k : Nat) :
    ∀ (xs : List String) (g : RNG), xs.Nodup → ((sample xs k g).1).Nodup := by
  induction k with
  | zero => intro xs g _; simp [sample]
  | succ k ih =>
    intro xs g hnd
    by_cases hne : xs = []
    · simp [sample, hne]
    · have hlt : (g.next.1 % xs.length) < xs.length :=
        Nat.mod_lt _ (List.length_pos.mpr hne)
      simp only [sample, dif_neg hne, List.nodup_cons]
      refine ⟨?_, ih _ _ (hnd.eraseIdx _)⟩
      intro hmem
      have hmem2 : xs.getD (g.next.1 % xs.length) "" ∈
          xs.eraseIdx (g.next.1 % xs.length) :=
        sample_subset k _ _ hmem
      rw [List.getD_eq_getElem?_getD, List.getElem?_eq_getElem hlt] at hmem2
      simp only [Option.getD_some] at hmem2
      rcases List.mem_eraseIdx_iff_getElem.mp hmem2 with ⟨j, hj, hjne, hjeq⟩
      exact hjne ((hnd.getElem_inj_iff).mp hjeq)

lemma sample_randint_length (lo hi : Nat) (xs : List String) (g1 g2 : RNG)
    (h : hi ≤ xs.length) (hlohi : lo ≤ hi) :
    lo ≤ (sample xs (randint lo hi g1).1 g2).1.length ∧
      (sample xs (randint lo hi g1).1 g2).1.length ≤ hi := by
  have h1 := randint_lower lo hi g1
  have h2 := randint_upper lo hi g1 hlohi
  rw [sample_length _ _ _ (le_trans h2 h)]
  exact ⟨h1, h2⟩

/-! Lemmas about the generation loop. -/

lemma mem_hotel_types (t : String) (ht : t ∈ hotel_types) :
    t = "Luxury" ∨ t = "Boutique" ∨ t = "Budget" ∨ t = "Business" := by
  simpa [hotel_types] using ht

lemma price_ok (t : String) (ht : t ∈ hotel_types) (g : RNG) :
    ∃ lo hi, claimPriceRange t = some (lo, hi) ∧
      lo ≤ (generate_price t g).1 ∧ (generate_price t g).1 ≤ hi := by
  rcases mem_hotel_types t ht with rfl | rfl | rfl | rfl
  · have e : generate_price "Luxury" g = randint 250 600 g := rfl
    exact ⟨250, 600, rfl, by rw [e]; exact randint_lower _ _ _,
      by rw [e]; exact randint_upper _ _ _ (by omega)⟩
  · have e : generate_price "Boutique" g = randint 180 350 g := rfl
    exact ⟨180, 350, rfl, by rw [e]; exact randint_lower _ _ _,
      by rw [e]; exact randint_upper _ _ _ (by omega)⟩
  · have e : generate_price "Budget" g = randint 80 150 g := rfl
    exact ⟨80, 150, rfl, by rw [e]; exact randint_lower _ _ _,
      by rw [e]; exact randint_upper _ _ _ (by omega)⟩
  · have e : generate_price "Business" g = randint 150 300 g := rfl
    exact ⟨150, 300, rfl, by rw [e]; exact randint_lower _ _ _,
      by rw [e]; exact randint_upper _ _ _ (by omega)⟩

lemma lookup_isSome (t : String) (ht : t ∈ hotel_types) :
    (price_ranges.lookup t).isSome = true := by
  rcases mem_hotel_types t ht with rfl | rfl | rfl | rfl <;> rfl

lemma genHotel_ok (loc addr : String) (g : RNG) :
    HotelOK loc (genHotel loc addr g).1 := by
  unfold genHotel HotelOK
  simp only
  refine ⟨choice_mem _ _ _ (by simp [hotel_types]),
    randint_lower _ _ _,
    randint_upper _ _ _ (by omega),
    price_ok _ (choice_mem _ _ _ (by simp [hotel_types])) _,
    (sample_randint_length 3 6 _ _ _ (by simp [amenitiesCatalog]) (by omega)).1,
    (sample_randint_length 3 6 _ _ _ (by simp [amenitiesCatalog]) (by omega)).2,
    sample_nodup _ _ _ (by decide),
    sample_subset _ _ _,
    ⟨_, choice_mem _ _ _ (by simp [neighborhoods]), rfl⟩,
    lookup_isSome _ (choice_mem _ _ _ (by simp [hotel_types]))⟩

lemma genHotels_length (loc : String) (fa : Nat → String) :
    ∀ (n i : Nat) (g : RNG), ((genHotels loc fa i n g).1).length = n := by
  intro n
  induction n with
  | zero => intro i g; rfl
  | succ n ih =>
    intro i g
    simp only [genHotels, List.length_cons]
    rw [ih]

lemma genHotels_ok (loc : String) (fa : Nat → String) :
    ∀ (n i : Nat) (g : RNG) (h : Hotel),
      h ∈ (genHotels loc fa i n g).1 → HotelOK loc h := by
  intro n
  induction n with
  | zero => intro i g h hh; simp [genHotels] at hh
  | succ n ih =>
    intro i g h hh
    simp only [genHotels, List.mem_cons] at hh
    rcases hh with rfl | hh
    · exact genHotel_ok loc (fa i) g
    · exact ih _ _ _ hh

/-! Structure of every successful call. -/

lemma suggest_ok_inv (loc ci co : String) (g : RNG) (fa : Nat → String)
    (r : HotelSuggestions) (hok : suggest_hotels loc ci co g fa = .ok r) :
    List.Sorted ratingGe r.hotels ∧ 3 ≤ r.hotels.length ∧
      r.hotels.length ≤ 8 ∧ ∀ h ∈ r.hotels, HotelOK loc h := by
  unfold suggest_hotels at hok
  split at hok
  · exact Except.noConfusion hok
  · split at hok
    · exact Except.noConfusion hok
    · split at hok
      · exact Except.noConfusion hok
      · simp only at hok
        injection hok with hok
        subst hok
        refine ⟨List.sorted_insertionSort ratingGe _, ?_, ?_, ?_⟩
        · simp only [sortHotels, List.length_insertionSort]
          rw [genHotels_length]
          exact randint_lower _ _ _
        · simp only [sortHotels, List.length_insertionSort]
          rw [genHotels_length]
          exact randint_upper _ _ _ (by omega)
        · intro h hh
          simp only [sortHotels, List.mem_insertionSort] at hh
          exact genHotels_ok loc fa _ _ _ h hh

/-! Bridge between the embedded validation and the spec-side
predicates. -/

lemma specFormatOk_eq (s : String) : specFormatOk s = matchesIsoPattern s := by
  obtain ⟨l⟩ := s
  rcases l with _ | ⟨c0, _ | ⟨c1, _ | ⟨c2, _ | ⟨c3, _ | ⟨c4, _ | ⟨c5, _ |
    ⟨c6, _ | ⟨c7, _ | ⟨c8, _ | ⟨c9, _ | ⟨c10, l⟩⟩⟩⟩⟩⟩⟩⟩⟩⟩⟩ <;> rfl

lemma strptime_spec (s : String) :
    ((∃ d, strptimeIsoDate s = .ok d) ↔ specRealDate s = true) ∧
    (∀ d, strptimeIsoDate s = .ok d → d = specParseDate s) := by
  obtain ⟨l⟩ := s
  rcases l with _ | ⟨c0, _ | ⟨c1, _ | ⟨c2, _ | ⟨c3, _ | ⟨c4, _ | ⟨c5, _ |
    ⟨c6, _ | ⟨c7, _ | ⟨c8, _ | ⟨c9, _ | ⟨c10, l⟩⟩⟩⟩⟩⟩⟩⟩⟩⟩⟩
  case cons.cons.cons.cons.cons.cons.cons.cons.cons.cons.nil =>
    simp only [strptimeIsoDate, specRealDate, specParseDate, parseComponents,
      decide_eq_true_eq]
    split_ifs with h1 h2 h3 h4 h5
    · constructor
      · constructor
        · rintro ⟨d, hd⟩; exact hd.elim
        · intro h; omega
      · intro d hd; exact hd.elim
    · constructor
      · constructor
        · rintro ⟨d, hd⟩; exact hd.elim
        · intro h; omega
      · intro d hd; exact hd.elim
    · have hdm : daysInMonth (1000 * digitVal c0 + 100 * digitVal c1 +
          10 * digitVal c2 + digitVal c3)
          (10 * digitVal c5 + digitVal c6) ≤ 31 := by
        unfold daysInMonth
        split_ifs <;> simp [isLeapYear]
      constructor
      · constructor
        · rintro ⟨d, hd⟩; exact hd.elim
        · intro h; omega
      · intro d hd; exact hd.elim
    · constructor
      · constructor
        · rintro ⟨d, hd⟩; exact hd.elim
        · intro h; omega
      · intro d hd; exact hd.elim
    · constructor
      · constructor
        · rintro ⟨d, hd⟩; exact hd.elim
        · intro h; omega
      · intro d hd; exact hd.elim
    · constructor
      · constructor
        · intro _; omega
        · intro _; exact ⟨_, rfl⟩
      · intro d hd
        injection hd with hd
        exact hd.symm
  all_goals
    simp [strptimeIsoDate, specRealDate, specParseDate, parseComponents]

lemma validate_ok_iff (s p : String) :
    (∃ d, validate_iso_date s p = .ok d) ↔
      (matchesIsoPattern s = true ∧ specRealDate s = true) := by
  unfold validate_iso_date
  by_cases hp : matchesIsoPattern s
  · rw [if_pos hp]
    constructor
    · rintro ⟨d, hd⟩
      rcases hs : strptimeIsoDate s with reason | d2
      · simp [hs] at hd
      · exact ⟨hp, ((strptime_spec s).1).mp ⟨d2, hs⟩⟩
    · rintro ⟨_, hr⟩
      obtain ⟨d, hd⟩ := ((strptime_spec s).1).mpr hr
      exact ⟨d, by simp [hd]⟩
  · rw [if_neg hp]
    constructor
    · rintro ⟨d, hd⟩; exact absurd hd (by simp)
    · rintro ⟨hf, _⟩; exact absurd hf hp

lemma validate_ok_val (s p : String) (d : Date)
    (h : validate_iso_date s p = .ok d) : d = specParseDate s := by
  unfold validate_iso_date at h
  by_cases hp : matchesIsoPattern s
  · rw [if_pos hp] at h
    rcases hs : strptimeIsoDate s with reason | d2
    · simp [hs] at h
    · simp only [hs, Except.ok.injEq] at h
      subst h
      exact (strptime_spec s).2 _ hs
  · rw [if_neg hp] at h
    exact absurd h (by simp)

lemma validate_format_err (s p : String) (hp : matchesIsoPattern s = false) :
    validate_iso_date s p = .error (.invalidDateFormat p s) := by
  unfold validate_iso_date
  simp [hp]

lemma validate_value_err (s p reason : String) (hp : matchesIsoPattern s = true)
    (hs : strptimeIsoDate s = .error reason) :
    validate_iso_date s p = .error (.invalidDateValue p s reason) := by
  unfold validate_iso_date
  simp [hp, hs]

lemma dateLe_iff (a b : Date) : Date.le a b = true ↔
    (a.year < b.year ∨ (a.year = b.year ∧ (a.month < b.month ∨
      (a.month = b.month ∧ a.day ≤ b.day)))) := by
  unfold Date.le
  simp [Nat.blt_eq, Nat.ble_eq]

lemma dateLe_false_iff (a b : Date) : Date.le a b = false ↔
    specDateLt (b.year, b.month, b.day) (a.year, a.month, a.day) = true := by
  rw [← Bool.not_eq_true, dateLe_iff]
  simp only [specDateLt, decide_eq_true_eq]
  omega

lemma suggest_isOk_iff (loc ci co : String) (g : RNG) (fa : Nat → String) :
    (∃ r, suggest_hotels loc ci co g fa = .ok r) ↔ specValidCall ci co = true := by
  constructor
  · rintro ⟨r, hr⟩
    unfold suggest_hotels at hr
    split at hr
    · exact absurd hr (by simp)
    · rename_i d1 heq1
      split at hr
      · exact absurd hr (by simp)
      · rename_i d2 heq2
        split at hr
        · exact absurd hr (by simp)
        · rename_i hcond
          have h1 := (validate_ok_iff ci "check_in").mp ⟨d1, heq1⟩
          have h2 := (validate_ok_iff co "check_out").mp ⟨d2, heq2⟩
          have hd1 := validate_ok_val ci "check_in" d1 heq1
          have hd2 := validate_ok_val co "check_out" d2 heq2
          simp only [Bool.not_eq_true] at hcond
          have hspec := (dateLe_false_iff d2 d1).mp hcond
          subst hd1
          subst hd2
          unfold specValidCall
          simp only [Bool.and_eq_true]
          rw [specFormatOk_eq, specFormatOk_eq]
          exact ⟨⟨⟨⟨h1.1, h2.1⟩, h1.2⟩, h2.2⟩, hspec⟩
  · intro hv
    unfold specValidCall at hv
    simp only [Bool.and_eq_true] at hv
    obtain ⟨⟨⟨⟨hf1, hf2⟩, hr1⟩, hr2⟩, hlt⟩ := hv
    rw [specFormatOk_eq] at hf1 hf2
    obtain ⟨d1, heq1⟩ := (validate_ok_iff ci "check_in").mpr ⟨hf1, hr1⟩
    obtain ⟨d2, heq2⟩ := (validate_ok_iff co "check_out").mpr ⟨hf2, hr2⟩
    have hd1 := validate_ok_val ci "check_in" d1 heq1
    have hd2 := validate_ok_val co "check_out" d2 heq2
    have hle : Date.le d2 d1 = false := by
      rw [dateLe_false_iff]
      subst hd1
      subst hd2
      exact hlt
    refine ⟨⟨sortHotels (genHotels loc fa 0 (randint 3 8 g).1
      (randint 3 8 g).2).1⟩, ?_⟩
    unfold suggest_hotels
    simp only [heq1, heq2, hle]
    rw [if_neg (by simp)]

/-! String containment lemmas. -/

lemma listHasPre_append (l t : List Char) : listHasPre l (l ++ t) = true := by
  induction l with
  | nil => rfl
  | cons a as ih => simp [listHasPre, ih]

lemma listHasPre_append_assoc (l₁ l₂ t : List Char) :
    listHasPre (l₁ ++ l₂) (l₁ ++ (l₂ ++ t)) = true := by
  rw [← List.append_assoc]
  exact listHasPre_append _ _

lemma listHasSub_of_pre (n hay : List Char) (h : listHasPre n hay = true) :
    listHasSub n hay = true := by
  cases hay with
  | nil =>
    cases n with
    | nil => rfl
    | cons a as => simp [listHasPre] at h
  | cons c tl => simp [listHasSub, h]

lemma listHasSub_of_middle (pre n post : List Char) :
    listHasSub n (pre ++ n ++ post) = true := by
  induction pre with
  | nil =>
    rw [List.nil_append]
    exact listHasSub_of_pre _ _ (listHasPre_append n post)
  | cons a pre ih =>
    simp only [List.cons_append, listHasSub, Bool.or_eq_true, List.append_eq]
    right
    exact ih

lemma strContains_of_append (x y z : String) :
    strContains (x ++ y ++ z) y = true := by
  unfold strContains
  have h : (x ++ y ++ z).data = x.data ++ y.data ++ z.data := by
    simp [String.data_append]
  rw [h]
  exact listHasSub_of_middle _ _ _

lemma strContains_left (y z : String) : strContains (y ++ z) y = true := by
  unfold strContains
  rw [String.data_append]
  have h := listHasSub_of_middle [] y.data z.data
  rwa [List.nil_append] at h

lemma strContains_right (x y : String) : strContains (x ++ y) y = true := by
  unfold strContains
  rw [String.data_append]
  have h := listHasSub_of_middle x.data y.data []
  rwa [List.append_nil] at h

lemma strEndsWith_append (x y : String) : strEndsWith (x ++ y) y = true := by
  unfold strEndsWith
  rw [String.data_append, List.reverse_append]
  exact listHasPre_append _ _

lemma strEndsWith_pair (x y z : String) :
    strEndsWith (x ++ y ++ z) (y ++ z) = true := by
  unfold strEndsWith
  rw [String.data_append, String.data_append, String.data_append,
    List.reverse_append, List.reverse_append, List.reverse_append]
  exact listHasPre_append_assoc _ _ _

/-! Claim theorems. -/

/-- C1: `suggest_hotels` raises an error exactly when `check_in` or
`check_out` fails the YYYY-MM-DD format check, fails to parse as a real
calendar date, or the parsed check-out is not strictly later than the
parsed check-in; a call that fails returns only the error and a call
that passes all three checks returns a result.  The three example calls
produce the range, format, and calendar-value errors respectively. -/
theorem C1_error_iff_invalid :
    (∀ loc ci co g fa,
      (∃ r, suggest_hotels loc ci co g fa = .ok r) ↔
        specValidCall ci co = true) ∧
    (∀ g fa, suggest_hotels "Paris" "2024-05-10" "2024-05-08" g fa =
      .error .invalidDateRange) ∧
    (∀ g fa, suggest_hotels "Paris" "05-10-2024" "2024-05-12" g fa =
      .error (.invalidDateFormat "check_in" "05-10-2024")) ∧
    (∀ g fa, suggest_hotels "Paris" "2024-02-30" "2024-03-01" g fa =
      .error (.invalidDateValue "check_in" "2024-02-30"
        "day is out of range for month")) :=
  ⟨suggest_isOk_iff, fun _ _ => rfl, fun _ _ => rfl, fun _ _ => rfl⟩

/-- C2: for every spec-valid call, the result holds between 3 and 8
hotel listings inclusive. -/
theorem C2_result_count (loc ci co : String) (g : RNG) (fa : Nat → String)
    (hv : specValidCall ci co = true) :
    ∃ r, suggest_hotels loc ci co g fa = .ok r ∧
      3 ≤ r.hotels.length ∧ r.hotels.length ≤ 8 := by
  obtain ⟨r, hr⟩ := (suggest_isOk_iff loc ci co g fa).mpr hv
  exact ⟨r, hr, (suggest_ok_inv loc ci co g fa r hr).2.1,
    (suggest_ok_inv loc ci co g fa r hr).2.2.1⟩

/-- C2 witness: the fixed valid call returns 3 to 8 listings. -/
theorem C2_result_count_witness :
    specValidCall "2024-05-10" "2024-05-12" = true ∧
    ∃ r, suggest_hotels "Paris" "2024-05-10" "2024-05-12" rng0 addr0 = .ok r ∧
      3 ≤ r.hotels.length ∧ r.hotels.length ≤ 8 :=
  ⟨by decide,
    C2_result_count "Paris" "2024-05-10" "2024-05-12" rng0 addr0 (by decide)⟩

/-- C3: the returned sequence is sorted by rating descending, in
particular every adjacent pair is ordered. -/
theorem C3_sorted_desc (loc ci co : String) (g : RNG) (fa : Nat → String)
    (r : HotelSuggestions) (hok : suggest_hotels loc ci co g fa = .ok r) :
    List.Sorted ratingGe r.hotels ∧
    ∀ i (hi : i + 1 < r.hotels.length),
      (r.hotels.get ⟨i + 1, hi⟩).ratingTenths ≤
        (r.hotels.get ⟨i, Nat.lt_of_succ_lt hi⟩).ratingTenths := by
  have hs := (suggest_ok_inv loc ci co g fa r hok).1
  refine ⟨hs, fun i hi => ?_⟩
  exact List.pairwise_iff_get.mp hs ⟨i, Nat.lt_of_succ_lt hi⟩ ⟨i + 1, hi⟩
    (Nat.lt_succ_self i)

/-- C3 witness: the fixed valid call returns a rating-sorted list. -/
theorem C3_sorted_desc_witness :
    suggest_hotels "Paris" "2024-05-10" "2024-05-12" rng0 addr0 =
      .ok demoRes ∧
    List.Sorted ratingGe demoRes.hotels :=
  ⟨rfl,
    (C3_sorted_desc "Paris" "2024-05-10" "2024-05-12" rng0 addr0
      demoRes rfl).1⟩

/-- C4: every listing's rating lies between 3.0 and 5.0 (30 and 50 in
tenths, one fractional digit) and its price lies within the range the
claim binds to its hotel type. -/
theorem C4_rating_price_ranges (loc ci co : String) (g : RNG)
    (fa : Nat → String) (r : HotelSuggestions)
    (hok : suggest_hotels loc ci co g fa = .ok r) :
    ∀ h ∈ r.hotels,
      30 ≤ h.ratingTenths ∧ h.ratingTenths ≤ 50 ∧
      ∃ lo hi, claimPriceRange h.hotel_type = some (lo, hi) ∧
        lo ≤ h.price_per_night ∧ h.price_per_night ≤ hi := by
  intro h hh
  obtain ⟨_, h30, h50, hpr, _⟩ :=
    (suggest_ok_inv loc ci co g fa r hok).2.2.2 h hh
  exact ⟨h30, h50, hpr⟩

/-- C4 witness: the first listing of the fixed valid call. -/
theorem C4_rating_price_ranges_witness :
    demoHotel ∈ demoRes.hotels ∧
    (30 ≤ demoHotel.ratingTenths ∧ demoHotel.ratingTenths ≤ 50 ∧
      ∃ lo hi, claimPriceRange demoHotel.hotel_type = some (lo, hi) ∧
        lo ≤ demoHotel.price_per_night ∧ demoHotel.price_per_night ≤ hi) :=
  ⟨by decide,
    C4_rating_price_ranges "Paris" "2024-05-10" "2024-05-12" rng0 addr0
      demoRes rfl demoHotel (by decide)⟩

/-- C5: every listing carries between 3 and 6 amenities, without
duplicates, all drawn from the fixed 8-item catalog. -/
theorem C5_amenities (loc ci co : String) (g : RNG) (fa : Nat → String)
    (r : HotelSuggestions) (hok : suggest_hotels loc ci co g fa = .ok r) :
    ∀ h ∈ r.hotels,
      3 ≤ h.amenities.length ∧ h.amenities.length ≤ 6 ∧
      h.amenities.Nodup ∧ h.amenities ⊆ amenitiesCatalog := by
  intro h hh
  obtain ⟨_, _, _, _, h3, h6, hnd, hsub, _⟩ :=
    (suggest_ok_inv loc ci co g fa r hok).2.2.2 h hh
  exact ⟨h3, h6, hnd, hsub⟩

/-- C5 witness: the first listing of the fixed valid call. -/
theorem C5_amenities_witness :
    demoHotel ∈ demoRes.hotels ∧ 3 ≤ demoHotel.amenities.length ∧
      demoHotel.amenities.length ≤ 6 ∧ demoHotel.amenities.Nodup :=
  ⟨by decide,
    (C5_amenities "Paris" "2024-05-10" "2024-05-12" rng0 addr0
      demoRes rfl demoHotel (by decide)).1,
    (C5_amenities "Paris" "2024-05-10" "2024-05-12" rng0 addr0
      demoRes rfl demoHotel (by decide)).2.1,
    (C5_amenities "Paris" "2024-05-10" "2024-05-12" rng0 addr0
      demoRes rfl demoHotel (by decide)).2.2.1⟩

/-- C6 counterexample: the claim says every validation failure's message
includes the received offending value, but the range failure of
`suggest_hotels("Paris", "2024-05-10", "2024-05-08")` carries the fixed
message "check_out date must be after check_in date", which contains
neither received date string. -/
theorem C6_counterexample :
    suggest_hotels "Paris" "2024-05-10" "2024-05-08" rng0 addr0 =
      .error .invalidDateRange ∧
    SuggestError.invalidDateRange.message =
      "check_out date must be after check_in date" ∧
    strContains SuggestError.invalidDateRange.message "2024-05-08" = false ∧
    strContains SuggestError.invalidDateRange.message "2024-05-10" = false :=
  ⟨rfl, rfl, by decide, by decide⟩

/-- C6 amended: every validation error message names the offending
parameter; format errors additionally embed the received value; the
calendar-value error embeds the parser's reason (not necessarily the
value); the range error is a fixed sentence naming both parameters but
embedding neither received value. -/
theorem C6_amended_messages :
    (∀ loc ci co g fa p v,
      suggest_hotels loc ci co g fa = .error (.invalidDateFormat p v) →
        (SuggestError.invalidDateFormat p v).message =
          p ++ " must be in ISO format (YYYY-MM-DD), got: " ++ v ∧
        strContains (SuggestError.invalidDateFormat p v).message p = true ∧
        strContains (SuggestError.invalidDateFormat p v).message v = true) ∧
    (∀ loc ci co g fa p v reason,
      suggest_hotels loc ci co g fa = .error (.invalidDateValue p v reason) →
        (SuggestError.invalidDateValue p v reason).message =
          "Invalid " ++ p ++ ": " ++ reason ∧
        strContains (SuggestError.invalidDateValue p v reason).message p = true) ∧
    (SuggestError.invalidDateRange.message =
      "check_out date must be after check_in date") := by
  refine ⟨?_, ?_, rfl⟩
  · intro loc ci co g fa p v _
    refine ⟨rfl, ?_, ?_⟩
    · show strContains
        (p ++ " must be in ISO format (YYYY-MM-DD), got: " ++ v) p = true
      rw [String.append_assoc]
      exact strContains_left p _
    · exact strContains_right _ v
  · intro loc ci co g fa p v reason _
    refine ⟨rfl, ?_⟩
    show strContains ("Invalid " ++ p ++ ": " ++ reason) p = true
    rw [String.append_assoc]
    exact strContains_of_append "Invalid " p _

/-- C6 amended witness: a concrete format failure whose message embeds
both the parameter name and the received value. -/
theorem C6_amended_messages_witness :
    suggest_hotels "Paris" "05-10-2024" "2024-05-12" rng0 addr0 =
      .error (.invalidDateFormat "check_in" "05-10-2024") ∧
    strContains
      (SuggestError.invalidDateFormat "check_in" "05-10-2024").message
      "05-10-2024" = true :=
  ⟨rfl, (C6_amended_messages.1 "Paris" "05-10-2024" "2024-05-12" rng0 addr0
    "check_in" "05-10-2024" rfl).2.2⟩

/-- C7 counterexample: with check_in carrying an invalid calendar value
and check_out malformed, the call reports check_in's calendar-value
error, not the InvalidDateFormat error for check_out the claim
predicts. -/
theorem C7_counterexample :
    suggest_hotels "Paris" "2024-02-30" "05-10-2024" rng0 addr0 =
      .error (.invalidDateValue "check_in" "2024-02-30"
        "day is out of range for month") ∧
    suggest_hotels "Paris" "2024-02-30" "05-10-2024" rng0 addr0 ≠
      .error (.invalidDateFormat "check_out" "05-10-2024") := by
  refine ⟨rfl, ?_⟩
  intro h
  have he : suggest_hotels "Paris" "2024-02-30" "05-10-2024" rng0 addr0 =
      .error (.invalidDateValue "check_in" "2024-02-30"
        "day is out of range for month") := rfl
  rw [he] at h
  simp at h

/-- C7 amended: validation runs before generation but per parameter, not
in globally ordered passes — check_in is pattern-checked and parsed
before check_out is examined at all, then the range check runs; hence
when check_in carries an invalid calendar value while check_out is
malformed, the error signaled is the InvalidDateValue error for
check_in. -/
theorem C7_amended_order :
    (∀ loc ci co g fa, matchesIsoPattern ci = false →
      suggest_hotels loc ci co g fa =
        .error (.invalidDateFormat "check_in" ci)) ∧
    (∀ loc ci co g fa reason, matchesIsoPattern ci = true →
      strptimeIsoDate ci = .error reason →
      suggest_hotels loc ci co g fa =
        .error (.invalidDateValue "check_in" ci reason)) ∧
    (∀ loc ci co g fa d, validate_iso_date ci "check_in" = .ok d →
      matchesIsoPattern co = false →
      suggest_hotels loc ci co g fa =
        .error (.invalidDateFormat "check_out" co)) ∧
    (∀ loc ci co g fa d reason, validate_iso_date ci "check_in" = .ok d →
      matchesIsoPattern co = true → strptimeIsoDate co = .error reason →
      suggest_hotels loc ci co g fa =
        .error (.invalidDateValue "check_out" co reason)) ∧
    (∀ g fa, suggest_hotels "Paris" "2024-02-30" "05-10-2024" g fa =
      .error (.invalidDateValue "check_in" "2024-02-30"
        "day is out of range for month")) := by
  refine ⟨?_, ?_, ?_, ?_, fun g fa => rfl⟩
  · intro loc ci co g fa hp
    unfold suggest_hotels
    rw [validate_format_err ci "check_in" hp]
  · intro loc ci co g fa reason hp hs
    unfold suggest_hotels
    rw [validate_value_err ci "check_in" reason hp hs]
  · intro loc ci co g fa d hok hp
    unfold suggest_hotels
    simp only [hok, validate_format_err co "check_out" hp]
  · intro loc ci co g fa d reason hok hp hs
    unfold suggest_hotels
    simp only [hok, validate_value_err co "check_out" reason hp hs]

/-- C7 amended witness: a malformed check_in is reported before
check_out is looked at. -/
theorem C7_amended_order_witness :
    suggest_hotels "Rome" "05-10-2024" "2024-05-12" rng0 addr0 =
      .error (.invalidDateFormat "check_in" "05-10-2024") :=
  C7_amended_order.1 "Rome" "05-10-2024" "2024-05-12" rng0 addr0 (by decide)

/-- C8: every listing's location field is "<neighborhood>, <location>"
with the neighborhood drawn from the fixed 6-name list and the
caller-supplied location verbatim; in particular for location "Tokyo"
every location field ends with ", Tokyo". -/
theorem C8_location_format (loc ci co : String) (g : RNG)
    (fa : Nat → String) (r : HotelSuggestions)
    (hok : suggest_hotels loc ci co g fa = .ok r) :
    ∀ h ∈ r.hotels,
      (∃ nb, nb ∈ neighborhoods ∧ h.location = nb ++ ", " ++ loc) ∧
      (loc = "Tokyo" → strEndsWith h.location ", Tokyo" = true) := by
  intro h hh
  obtain ⟨_, _, _, _, _, _, _, _, hloc, _⟩ :=
    (suggest_ok_inv loc ci co g fa r hok).2.2.2 h hh
  refine ⟨hloc, ?_⟩
  rintro rfl
  obtain ⟨nb, _, he⟩ := hloc
  rw [he]
  have hcat : (", " : String) ++ "Tokyo" = ", Tokyo" := by decide
  rw [← hcat]
  exact strEndsWith_pair nb ", " "Tokyo"

/-- C8 witness: the first listing of the spec's Tokyo example call. -/
theorem C8_location_format_witness :
    demoTokyoHotel ∈ demoTokyoRes.hotels ∧
    strEndsWith demoTokyoHotel.location ", Tokyo" = true :=
  ⟨by decide,
    (C8_location_format "Tokyo" "2024-06-01" "2024-06-03" rng1 addr0
      demoTokyoRes rfl demoTokyoHotel (by decide)).2 rfl⟩

/-- C9: every generated hotel type is one of the four catalogued types,
each of which has an explicit entry in the `price_ranges` table, so the
lookup in `generate_price` always succeeds and the default (100, 300)
fallback branch is unreachable. -/
theorem C9_no_default_price (loc ci co : String) (g : RNG)
    (fa : Nat → String) (r : HotelSuggestions)
    (hok : suggest_hotels loc ci co g fa = .ok r) :
    (∀ t ∈ hotel_types, (price_ranges.lookup t).isSome = true) ∧
    ∀ h ∈ r.hotels, h.hotel_type ∈ hotel_types ∧
      (price_ranges.lookup h.hotel_type).isSome = true := by
  refine ⟨fun t ht => lookup_isSome t ht, fun h hh => ?_⟩
  obtain ⟨ht, _, _, _, _, _, _, _, _, hsome⟩ :=
    (suggest_ok_inv loc ci co g fa r hok).2.2.2 h hh
  exact ⟨ht, hsome⟩

/-- C9 witness: the first listing of the fixed valid call. -/
theorem C9_no_default_price_witness :
    demoHotel ∈ demoRes.hotels ∧ demoHotel.hotel_type ∈ hotel_types ∧
      (price_ranges.lookup demoHotel.hotel_type).isSome = true :=
  ⟨by decide,
    (C9_no_default_price "Paris" "2024-05-10" "2024-05-12" rng0 addr0
      demoRes rfl).2 demoHotel (by decide)⟩

/-- C10: the location parameter is never validated — every string
location, with any valid date pair, yields a successful call, and the
location is embedded verbatim (no normalization, trimming, or
rejection) as the suffix of every listing's location field. -/
theorem C10_location_unvalidated (loc ci co : String) (g : RNG)
    (fa : Nat → String) (hv : specValidCall ci co = true) :
    ∃ r, suggest_hotels loc ci co g fa = .ok r ∧
      ∀ h ∈ r.hotels,
        (∃ nb, nb ∈ neighborhoods ∧ h.location = nb ++ ", " ++ loc) ∧
        strEndsWith h.location loc = true := by
  obtain ⟨r, hr⟩ := (suggest_isOk_iff loc ci co g fa).mpr hv
  refine ⟨r, hr, fun h hh => ?_⟩
  obtain ⟨_, _, _, _, _, _, _, _, hloc, _⟩ :=
    (suggest_ok_inv loc ci co g fa r hr).2.2.2 h hh
  refine ⟨hloc, ?_⟩
  obtain ⟨nb, _, he⟩ := hloc
  rw [he]
  exact strEndsWith_append (nb ++ ", ") loc

/-- C10 witness: a location containing a comma and a control character
is accepted and embedded verbatim. -/
theorem C10_location_unvalidated_witness :
    specValidCall "2024-05-10" "2024-05-12" = true ∧
    ∃ r, suggest_hotels "Par,is\n" "2024-05-10" "2024-05-12" rng1 addr0 =
        .ok r ∧
      ∀ h ∈ r.hotels,
        (∃ nb, nb ∈ neighborhoods ∧
          h.location = nb ++ ", " ++ "Par,is\n") ∧
        strEndsWith h.location "Par,is\n" = true :=
  ⟨by decide,
    C10_location_unvalidated "Par,is\n" "2024-05-10" "2024-05-12" rng1 addr0
      (by decide)⟩
